import Mathlib

/-!
Verification of the openfoodfacts-db repository (Node.js + SQLite product
catalog replica).  The definitions below are a shallow embedding of the
JavaScript source:

* `src/db/transformer.js` (`transformProduct`) — the Record Transformer;
* `src/scripts/import.js` (`prepareStatements`, `runImport`) — the Bulk Loader;
* `src/scripts/update.js` (`prepareStatements`, `processDeltaFile`,
  `runUpdate`) — the Delta Synchronizer;
* `src/db/database.js` (`search`) — the Query Engine surface.

JavaScript values flowing through this code are JSON values (the output of
`JSON.parse`) plus `undefined`; we model JSON values by the mutual inductive
`Json` below and `undefined` by `Option Json` (`none` = `undefined`).
JSON numbers are IEEE doubles in JavaScript; we model them as rationals,
which is exact for every value the verified statements touch.
-/

mutual
inductive Json where
  | null
  | bool (b : Bool)
  | num (q : ℚ)
  | str (s : String)
  | arr (xs : JsonList)
  | obj (fields : JsonObj)
deriving DecidableEq

inductive JsonList where
  | nil
  | cons (hd : Json) (tl : JsonList)
deriving DecidableEq

inductive JsonObj where
  | nil
  | cons (key : String) (val : Json) (tl : JsonObj)
deriving DecidableEq
end

/-- A JavaScript value that is either `undefined` (`none`) or a JSON value. -/
abbrev JsVal := Option Json

/-- JavaScript truthiness of a JSON value: `null`, `false`, `0` and `""` are
falsy; every other JSON value (including empty arrays and objects) is truthy. -/
def jsTruthy : Json → Bool
  | .null => false
  | .bool b => b
  | .num q => decide (q ≠ 0)
  | .str s => decide (s ≠ "")
  | .arr _ => true
  | .obj _ => true

/-- Truthiness of a possibly-`undefined` value: `undefined` is falsy. -/
def jsTruthyV : JsVal → Bool
  | none => false
  | some j => jsTruthy j

/-- The JavaScript loose test `x != null`: true unless `x` is `undefined` or
`null`. -/
def jsNonNull : JsVal → Bool
  | none => false
  | some .null => false
  | some _ => true

/-- `JSON.parse` keeps the last duplicate of a repeated object key, so object
member lookup returns the value of the last field with the given name. -/
def JsonObj.lookupLast : JsonObj → String → Option Json
  | .nil, _ => none
  | .cons key v tl, k =>
    match JsonObj.lookupLast tl k with
    | some r => some r
    | none => if key = k then some v else none

/-- JavaScript property access `p[k]` for non-`null` values: object fields are
looked up, any other value (primitives auto-box and have no own properties,
arrays have no string data properties we use) yields `undefined`.  Access on
`null` throws a TypeError; the call sites of this function handle that case
separately, before calling it. -/
def getField (p : Json) (k : String) : JsVal :=
  match p with
  | .obj fields => fields.lookupLast k
  | _ => none

/-- The JavaScript expression `v || d` specialised to a default JSON value:
returns `v` when truthy, otherwise `d`. -/
def jsOrJson (v : JsVal) (d : Json) : Json :=
  match v with
  | some j => if jsTruthy j then j else d
  | none => d

/-- The JavaScript expression `v || null`, as used for the nullable record
fields: a truthy value is kept, every falsy value (including `0`, `""`,
`false` and `undefined`) becomes `null`, which we model as `none`. -/
def jsOrNull (v : JsVal) : Option Json :=
  match v with
  | some j => if jsTruthy j then some j else none
  | none => none

/-- Digit run to its decimal value, for number parsing. -/
def decDigitsVal (ds : List Char) : Nat :=
  ds.foldl (fun a c => a * 10 + (c.toNat - 48)) 0

/-- Exponent magnitude of a JavaScript numeric string: mandatory digits, then
end of input. -/
def parseExpMag (base : ℚ) (neg : Bool) (cs : List Char) : Option ℚ :=
  match cs.span (·.isDigit) with
  | (ds, []) =>
    if ds.isEmpty then none
    else some (if neg then base / (10 : ℚ) ^ decDigitsVal ds
               else base * (10 : ℚ) ^ decDigitsVal ds)
  | _ => none

/-- Exponent of a JavaScript numeric string after the `e`/`E` marker:
optional sign, then digits. -/
def parseExpDigits (base : ℚ) (cs : List Char) : Option ℚ :=
  match cs with
  | '+' :: rest => parseExpMag base false rest
  | '-' :: rest => parseExpMag base true rest
  | rest => parseExpMag base false rest

/-- Trailing part of a JavaScript numeric string: optional exponent marker
with optional sign and mandatory digits, then end of input. -/
def parseExpTail (base : ℚ) : List Char → Option ℚ
  | [] => some base
  | 'e' :: rest => parseExpDigits base rest
  | 'E' :: rest => parseExpDigits base rest
  | _ => none

/-- Unsigned decimal part of a JavaScript numeric string:
`digits`, `digits.digits?`, or `.digits`, followed by an optional exponent. -/
def parseDecMag (cs : List Char) : Option ℚ :=
  match cs.span (·.isDigit) with
  | (ip, '.' :: rest2) =>
    match rest2.span (·.isDigit) with
    | (fp, rest3) =>
      if ip.isEmpty && fp.isEmpty then none
      else parseExpTail ((decDigitsVal ip : ℚ) + mkRat (decDigitsVal fp) (10 ^ fp.length)) rest3
  | (ip, rest) =>
    if ip.isEmpty then none else parseExpTail (decDigitsVal ip) rest

/-- JavaScript whitespace trimming on a character list. -/
def trimChars (cs : List Char) : List Char :=
  ((cs.dropWhile Char.isWhitespace).reverse.dropWhile Char.isWhitespace).reverse

/-- `String.prototype.trim`, modelled on the character list of the string. -/
def jsTrim (s : String) : String :=
  String.mk (trimChars s.toList)

/-- JavaScript `ToNumber` on a string (`Number(s)`): whitespace-trimmed, empty
means `0`, otherwise a signed decimal with optional fraction and exponent.
(`Infinity` and radix prefixes are not modelled; no verified statement
coerces such strings.)  `none` models `NaN`. -/
def jsStrToNum (s : String) : Option ℚ :=
  match trimChars s.toList with
  | [] => some 0
  | '+' :: rest => parseDecMag rest
  | '-' :: rest => (parseDecMag rest).map (fun q => -q)
  | cs => parseDecMag cs

/-- Space/separator join of a list of strings: the JavaScript
`Array.prototype.join` shape (empty list gives the empty string, no leading
or trailing separator). -/
def joinWith (sep : String) : List String → String
  | [] => ""
  | [s] => s
  | s :: rest => s ++ sep ++ joinWith sep rest

/-- JavaScript number formatting.  Exact for integer-valued numbers;
non-integer rationals are printed as `num/den` (JavaScript prints a decimal
expansion of the underlying double; no verified statement converts a
non-integer number to a string). -/
def jsNumRepr (q : ℚ) : String :=
  if q.den = 1 then toString q.num else toString q.num ++ "/" ++ toString q.den

mutual
/-- JavaScript `ToString` of a JSON value, as used by `Array.prototype.join`
and template strings. -/
def jsToString : Json → String
  | .null => "null"
  | .bool b => if b then "true" else "false"
  | .num q => jsNumRepr q
  | .str s => s
  | .arr xs => jsArrJoin "," xs
  | .obj _ => "[object Object]"

/-- `Array.prototype.join(sep)`: elements are converted with `ToString`,
except that `null` (and `undefined`, which cannot occur inside a parsed JSON
value) becomes the empty string. -/
def jsArrJoin (sep : String) : JsonList → String
  | .nil => ""
  | .cons x .nil => jsElemString x
  | .cons x tl => jsElemString x ++ sep ++ jsArrJoin sep tl
termination_by structural xs => xs

/-- Element conversion inside `Array.prototype.join`: `ToString`, except that
`null` becomes the empty string. -/
def jsElemString : Json → String
  | .null => ""
  | .bool b => if b then "true" else "false"
  | .num q => jsNumRepr q
  | .str s => s
  | .arr xs => jsArrJoin "," xs
  | .obj _ => "[object Object]"
termination_by structural j => j
end

/-- JavaScript `ToNumber` of a value, `none` modelling `NaN`.  Arrays convert
via their `join(",")` string; plain objects convert to `"[object Object]"`,
which is `NaN`. -/
def jsToNumberOpt : JsVal → Option ℚ
  | none => none
  | some .null => some 0
  | some (.bool b) => some (if b then 1 else 0)
  | some (.num q) => some q
  | some (.str s) => jsStrToNum s
  | some (.arr xs) => jsStrToNum (jsArrJoin "," xs)
  | some (.obj _) => none

/-- The JavaScript comparison `v > q` for a constant rational bound `q`:
`ToNumber` coercion, `NaN` compares false. -/
def jsGT (v : JsVal) (q : ℚ) : Bool :=
  match jsToNumberOpt v with
  | some x => decide (q < x)
  | none => false

/-!
## Record Transformer — `src/db/transformer.js`, `transformProduct`

The structure `ProductData` mirrors the object literal `productData` built at
lines 46-68 of the transformer: its fields are exactly the keys of that
object, in source order.  Note that the source object has **no**
`complete_macros` key.  SQL timestamp columns (`created_at`, `updated_at`)
are filled by SQLite itself and are not part of the transformer's output.
-/

structure ProductData where
  id : JsVal
  code : JsVal
  product_name : Option Json
  brands : Option Json
  categories : Option Json
  countries : Option Json
  energy_kcal : Option Json
  fat_100g : Option Json
  saturated_fat_100g : Option Json
  carbohydrates_100g : Option Json
  sugars_100g : Option Json
  proteins_100g : Option Json
  salt_100g : Option Json
  fiber_100g : Option Json
  nutriscore_grade : Option Json
  nova_group : Option Json
  ecoscore_grade : Option Json
  completeness : Json
  last_modified_t : Option Json
  raw_data : String
  search_text : String
deriving DecidableEq

/-- The keys of the `productData` object literal returned by
`transformProduct` (source order).  These are the properties available to
named-parameter binding when a caller runs an SQL statement on the object. -/
def productDataKeys : List String :=
  ["id", "code", "product_name", "brands", "categories", "countries",
   "energy_kcal", "fat_100g", "saturated_fat_100g", "carbohydrates_100g",
   "sugars_100g", "proteins_100g", "salt_100g", "fiber_100g",
   "nutriscore_grade", "nova_group", "ecoscore_grade", "completeness",
   "last_modified_t", "raw_data", "search_text"]

/-- One raw source line, paired with the outcome of `JSON.parse` on it:
`parsed = none` means `JSON.parse(text)` throws (malformed JSON), otherwise
`parsed = some j` is the decoded value.  `JSON.parse` is a platform
primitive, external to this repository, so it enters the embedding as this
input datum rather than as a definition. -/
inductive RawLine where
  | line (text : String) (parsed : Option Json)
deriving DecidableEq

/-- The expression `v?.join(' ')` applied to a tags field: optional chaining
returns `undefined` on `undefined`/`null`; on an array the elements are
joined; on any other value `.join` is not a function and a TypeError is
thrown (modelled by the `Except` error). -/
def tagsJoin (v : JsVal) : Except Unit (Option String) :=
  match v with
  | none => .ok none
  | some .null => .ok none
  | some (.arr xs) => .ok (some (jsArrJoin " " xs))
  | some _ => .error ()

/-- `searchTextParts.filter(Boolean).join(' ')`: falsy parts (`undefined`,
`null`, `""`, `0`, `false`) are dropped, the remaining parts are converted by
`ToString` and joined with single spaces. -/
def joinTruthyParts (parts : List JsVal) : String :=
  joinWith " "
    (parts.filterMap (fun v =>
      match v with
      | some j => if jsTruthy j then some (jsToString j) else none
      | none => none))

/-- The `productData` object literal of the transformer (transformer.js
lines 36-68), given the already-joined tags fields: the `nutriments` locals,
the `hasMacros`/`isComplete` flags, and the record fields. -/
def transformedRecord (line : String) (p : Json) (catJoin labJoin : Option String) :
    ProductData :=
  let nutriments := jsOrJson (getField p "nutriments") (.obj .nil)
  let energy := getField nutriments "energy-kcal_100g"
  let fat := getField nutriments "fat_100g"
  let carbs := getField nutriments "carbohydrates_100g"
  let proteins := getField nutriments "proteins_100g"
  let hasMacros := jsNonNull energy && jsNonNull fat &&
    jsNonNull carbs && jsNonNull proteins
  let compl := getField p "completeness"
  let isComplete := hasMacros && jsNonNull compl && jsGT compl (mkRat 4 5)
  { id := getField p "code"
    code := getField p "code"
    product_name := jsOrNull (getField p "product_name")
    brands := jsOrNull (getField p "brands")
    categories := jsOrNull (getField p "categories")
    countries := jsOrNull (getField p "countries")
    energy_kcal := jsOrNull energy
    fat_100g := jsOrNull fat
    saturated_fat_100g := jsOrNull (getField nutriments "saturated-fat_100g")
    carbohydrates_100g := jsOrNull carbs
    sugars_100g := jsOrNull (getField nutriments "sugars_100g")
    proteins_100g := jsOrNull proteins
    salt_100g := jsOrNull (getField nutriments "salt_100g")
    fiber_100g := jsOrNull (getField nutriments "fiber_100g")
    nutriscore_grade := jsOrNull (getField p "nutriscore_grade")
    nova_group := jsOrNull (getField p "nova_group")
    ecoscore_grade := jsOrNull (getField p "ecoscore_grade")
    completeness := if isComplete then .num 1 else jsOrJson compl (.num 0)
    last_modified_t := jsOrNull (getField p "last_modified_t")
    raw_data := line
    search_text := joinTruthyParts
      [getField p "product_name", getField p "brands", getField p "code",
       catJoin.map Json.str, labJoin.map Json.str] }

/-- Body of the `try` block of `transformProduct` (transformer.js lines
22-70), applied to the already-decoded value `p` and the original line
`line`.  `.error` models a thrown TypeError (caught by the enclosing
`try/catch`), `.ok none` models the validation skip `return null`, and
`.ok (some r)` is the returned record.

Line-by-line correspondence: the `p = null` test models that `p.code` on
line 24 throws on `null`; the truthiness guard is line 24; `tagsJoin` calls
are the `searchTextParts` entries of lines 32-33; the `nutriments` locals
are lines 36-44; the record fields are lines 46-68. -/
def transformParsed (line : String) (p : Json) : Except Unit (Option ProductData) :=
  if p = .null then .error ()
  else
    if !(jsTruthyV (getField p "code") && jsTruthyV (getField p "product_name")) then
      .ok none
    else
      match tagsJoin (getField p "categories_tags"),
            tagsJoin (getField p "labels_tags") with
      | .error e, _ => .error e
      | .ok _, .error e => .error e
      | .ok catJoin, .ok labJoin => .ok (some (transformedRecord line p catJoin labJoin))

/-- `transformProduct` (transformer.js lines 18-76): empty line gives `null`
(line 19), a `JSON.parse` failure or any TypeError thrown while building the
record is caught and gives `null` (lines 71-75), otherwise the result of the
`try` body is returned. -/
def transformProduct (l : RawLine) : Option ProductData :=
  match l with
  | .line text parsed =>
    if text = "" then none
    else
      match parsed with
      | none => none
      | some p =>
        match transformParsed text p with
        | .error _ => none
        | .ok r => r

/-!
## SQL statements of the two writers

`src/scripts/import.js` (Bulk Loader) and `src/scripts/update.js` (Delta
Synchronizer) each prepare one `INSERT OR REPLACE INTO products` statement in
their `prepareStatements` and run it per record with the transformer's
output object as the named-parameter source.
-/

/-- Column list of the Bulk Loader's insert statement (import.js lines
26-38).  Every column is bound from a same-named `@` parameter, so this is
also the list of named parameters of the statement. -/
def importInsertColumns : List String :=
  ["id", "code", "product_name", "brands", "categories", "countries",
   "energy_kcal", "fat_100g", "saturated_fat_100g", "carbohydrates_100g",
   "sugars_100g", "proteins_100g", "salt_100g", "fiber_100g",
   "nutriscore_grade", "nova_group", "ecoscore_grade", "completeness",
   "complete_macros", "last_modified_t", "raw_data", "search_text"]

/-- Column list of the Delta Synchronizer's upsert statement (update.js
lines 204-216).  `updated_at` is filled with `CURRENT_TIMESTAMP`; all other
columns are bound from same-named `@` parameters. -/
def updateUpsertColumns : List String :=
  ["id", "code", "product_name", "brands", "categories", "countries",
   "energy_kcal", "fat_100g", "saturated_fat_100g", "carbohydrates_100g",
   "sugars_100g", "proteins_100g", "salt_100g", "fiber_100g",
   "nutriscore_grade", "nova_group", "ecoscore_grade", "completeness",
   "last_modified_t", "raw_data", "search_text", "updated_at"]

/-- Named parameters of the Delta Synchronizer's upsert statement: every
column except `updated_at` (which is `CURRENT_TIMESTAMP` in the SQL). -/
def updateUpsertNamedParams : List String :=
  ["id", "code", "product_name", "brands", "categories", "countries",
   "energy_kcal", "fat_100g", "saturated_fat_100g", "carbohydrates_100g",
   "sugars_100g", "proteins_100g", "salt_100g", "fiber_100g",
   "nutriscore_grade", "nova_group", "ecoscore_grade", "completeness",
   "last_modified_t", "raw_data", "search_text"]

/-- better-sqlite3 named-parameter binding: running a prepared statement with
an object as the parameter source succeeds only if every named parameter of
the statement is a key of the object; otherwise the library raises
"Missing named parameter". -/
def runNamedStmt (params provided : List String) : Except String Unit :=
  if params.all (fun p => provided.contains p) then .ok ()
  else .error "Missing named parameter"

/-!
## Primary store and upsert semantics

The `products` table keyed by `id` (TEXT PRIMARY KEY).  `INSERT OR REPLACE`
is a per-record full-row replace.  We model the store as a map from the
bound `@id` value to the row's data columns (a `ProductData`).  The SQLite
audit columns `created_at`/`updated_at` record the wall-clock time of the
write and are outside this state model; the spec's idempotence guarantee is
about the data columns ("no-op in effect").
-/

/-- The primary store: `id` value to stored row. -/
abbrev Store : Type := JsVal → Option ProductData

/-- `INSERT OR REPLACE` of one transformed record (full-row replace keyed by
`id`). -/
def upsertProduct (s : Store) (r : ProductData) : Store :=
  fun k => if k = r.id then some r else s k

/-- Running the prepared upsert for each record of a batch, in order
(update.js lines 219-223; import.js lines 41-45).  Transactions only affect
atomicity under failure, not the resulting state, so batch boundaries do not
appear here. -/
def applyProducts (s : Store) (rs : List ProductData) : Store :=
  rs.foldl upsertProduct s

/-- Effect of one delta file's line stream on the store: each line is run
through the Transformer, skips are dropped, and the surviving records are
upserted in order (update.js lines 260-275). -/
def applyLines (s : Store) (lines : List RawLine) : Store :=
  applyProducts s (lines.filterMap transformProduct)

/-!
## Delta Synchronizer — `src/scripts/update.js`, `runUpdate`

Manifest handling (lines 303-313): split the index file on newlines, keep
names ending in `.json.gz`, parse each with the regular expression
`_(\d+)_(\d+)\.json\.gz$`, keep entries with `end > lastTimestamp`, and sort
ascending by `end` (`Array.prototype.sort` is stable).
-/

/-- Splitting a character list at every separator character
(`String.prototype.split` with a single-character separator). -/
def splitOnPred (p : Char → Bool) : List Char → List (List Char)
  | [] => [[]]
  | c :: rest =>
    if p c then [] :: splitOnPred p rest
    else
      match splitOnPred p rest with
      | [] => [[c]]
      | h :: t => (c :: h) :: t

/-- `String.prototype.split(sep)` for a one-character separator. -/
def jsSplit (sep : Char) (s : String) : List String :=
  (splitOnPred (fun c => c = sep) s.toList).map String.mk

/-- `String.prototype.endsWith`, on the character lists of the strings. -/
def strEndsWith (s suffixStr : String) : Bool :=
  suffixStr.toList.isSuffixOf s.toList

/-- A manifest entry as parsed by `runUpdate` line 310:
`{ filename, start: parseInt(match[1]), end: parseInt(match[2]) }`. -/
structure DeltaDesc where
  filename : String
  startTs : Nat
  endTs : Nat
deriving DecidableEq, Repr

/-- Attempt to match `_(\d+)_(\d+)\.json\.gz$` at the head of `cs` (running
to the end of the string).  The digit runs are maximal; since a digit can
match neither `_` nor `.`, regex backtracking cannot produce any other
match at this position. -/
def matchDeltaAt (cs : List Char) : Option (Nat × Nat) :=
  match cs with
  | [] => none
  | c :: rest =>
    if c = '_' then
      match rest.dropWhile (·.isDigit) with
      | [] => none
      | c2 :: rest2 =>
        if c2 = '_' then
          if (rest.takeWhile (·.isDigit)).isEmpty then none
          else if (rest2.takeWhile (·.isDigit)).isEmpty then none
          else if rest2.dropWhile (·.isDigit) = ".json.gz".toList then
            some (decDigitsVal (rest.takeWhile (·.isDigit)),
                  decDigitsVal (rest2.takeWhile (·.isDigit)))
          else none
        else none
    else none

/-- Leftmost match of `_(\d+)_(\d+)\.json\.gz$` in the character list, as a
JavaScript regex search finds it. -/
def scanDeltaMatch : List Char → Option (Nat × Nat)
  | [] => none
  | c :: rest =>
    match matchDeltaAt (c :: rest) with
    | some r => some r
    | none => scanDeltaMatch rest

/-- `filename.match(/_(\d+)_(\d+)\.json\.gz$/)` followed by the descriptor
construction of update.js line 310; `none` is the `null` descriptor that the
subsequent filter discards. -/
def parseDeltaEntry (filename : String) : Option DeltaDesc :=
  (scanDeltaMatch filename.toList).map (fun se => ⟨filename, se.1, se.2⟩)

/-- Stable insertion of a descriptor into a list sorted ascending by `end`:
an element moves before the first strictly larger `end`, so equal ends keep
their original relative order. -/
def insertByEnd (x : DeltaDesc) : List DeltaDesc → List DeltaDesc
  | [] => [x]
  | y :: ys => if x.endTs < y.endTs then x :: y :: ys else y :: insertByEnd x ys

/-- Stable sort ascending by `end`, modelling
`.sort((a, b) => a.end - b.end)` (stable per the ECMAScript spec). -/
def sortByEnd : List DeltaDesc → List DeltaDesc
  | [] => []
  | x :: xs => insertByEnd x (sortByEnd xs)

/-- The `newDeltas` pipeline of `runUpdate` (lines 305-313): split the index
into lines, keep `.json.gz` names, parse each name (the JavaScript `.map`
producing `null` for non-matches composed with `.filter(d => d && ...)` is
the `filter`/`filterMap` pair below), keep entries with
`end > lastTimestamp`, sort ascending by `end`. -/
def newDeltas (indexContent : String) (lastTimestamp : Nat) : List DeltaDesc :=
  let allDeltas := (jsSplit '\n' indexContent).filter (fun f => strEndsWith f ".json.gz")
  let mapped := allDeltas.map parseDeltaEntry
  let kept := mapped.filter (fun o =>
    match o with
    | some dd => decide (lastTimestamp < dd.endTs)
    | none => false)
  sortByEnd (kept.filterMap id)

/-- Observable steps of the `for (const delta of newDeltas)` loop of
`runUpdate` (lines 325-330): each iteration fully applies one delta file,
then persists the watermark via `db.setMeta(LAST_DELTA_KEY, delta.end)`. -/
inductive SyncEvent where
  | applied (d : DeltaDesc)
  | persisted (w : Nat)
deriving DecidableEq, Repr

/-- The fetch-and-decode collaborator for one delta file: `none` models a
thrown transfer or decode failure (download or gunzip, update.js lines
242-250), which happens before any record of that file is upserted;
`some lines` is the decoded line stream of the file. -/
abbrev FetchLines : Type := String → Option (List RawLine)

/-- Event trace of the update loop over a selected delta list: a fetch or
decode failure rethrows out of the loop (only the top-level `.catch` of the
script sees it), so the loop produces no further events (update.js lines
325-330 with `processDeltaFile` lines 235-283). -/
def runLoop (fetchLines : FetchLines) : List DeltaDesc → List SyncEvent
  | [] => []
  | d :: rest =>
    match fetchLines d.filename with
    | none => []
    | some _ => .applied d :: .persisted d.endTs :: runLoop fetchLines rest

/-- Event trace of a whole `runUpdate` run with persisted watermark `W`. -/
def runUpdateEvents (fetchLines : FetchLines) (indexContent : String) (W : Nat) :
    List SyncEvent :=
  runLoop fetchLines (newDeltas indexContent W)

/-- Mutable state of a run: the primary store and the persisted watermark
(`meta` key `last_applied_delta_timestamp`). -/
structure SyncState where
  store : Store
  watermark : Nat

/-- State semantics of the update loop: a successfully fetched file is fully
applied to the store and the watermark is persisted as that file's `end`
before the next file starts; a fetch/decode failure stops the run with the
state as already committed. -/
def runLoopState (fetchLines : FetchLines) : List DeltaDesc → SyncState → SyncState
  | [], st => st
  | d :: rest, st =>
    match fetchLines d.filename with
    | none => st
    | some lines =>
      runLoopState fetchLines rest ⟨applyLines st.store lines, d.endTs⟩

/-- The delta files applied in a trace, in order. -/
def appliedDeltas (es : List SyncEvent) : List DeltaDesc :=
  es.filterMap (fun e =>
    match e with
    | .applied d => some d
    | .persisted _ => none)

/-- The watermark values persisted in a trace, in order. -/
def persistedWatermarks (es : List SyncEvent) : List Nat :=
  es.filterMap (fun e =>
    match e with
    | .applied _ => none
    | .persisted w => some w)

/-- Checks that every `applied d` event is immediately followed by a
`persisted` event carrying exactly `d.endTs`, before anything else happens. -/
def persistsFollowApplies : List SyncEvent → Bool
  | [] => true
  | .applied d :: .persisted w :: rest =>
    decide (w = d.endTs) && persistsFollowApplies rest
  | .applied _ :: _ => false
  | .persisted _ :: rest => persistsFollowApplies rest

/-- A list of naturals is nondecreasing (adjacent pairs in order). -/
def nondecreasing : List Nat → Bool
  | [] => true
  | [_] => true
  | a :: b :: rest => decide (a ≤ b) && nondecreasing (b :: rest)

/-!
## Query Engine — `src/db/database.js`, `search` (lines 168-188)

The two prepared FTS statements are external SQLite queries; they enter the
embedding as function parameters (`execSearch` for `stmtSearch`,
`execSearchComplete` for `stmtSearchComplete`).  `search` returns the result
rows together with the list of `(ftsTerm, limit)` calls it issued against
the store, so that "the store is not queried" is observable.
-/

/-- The `term` argument as a JavaScript value: a string, or any non-string
value (for which either `!term` or the `typeof` check fires). -/
inductive SearchTerm where
  | str (s : String)
  | nonString
deriving DecidableEq

/-- `limit = Math.min(Math.max(limit, 1), 100)` (database.js line 174). -/
def clampLimit (limit : Int) : Int :=
  min (max limit 1) 100

/-- Escaping of embedded double quotes: `t.replace(/"/g, '""')`. -/
def escapeQuotes (t : String) : String :=
  String.mk (t.toList.flatMap (fun c => if c = '"' then ['"', '"'] else [c]))

/-- The FTS term construction of database.js lines 180-184: split the term
on whitespace (`split(/\s+/)` followed by `filter(t => t)` — composed here
as a per-character split followed by the same empty filter, which yields the
same token list), quote each token with doubled inner quotes, append the
prefix wildcard, join with spaces. -/
def buildFtsTerm (term : String) : String :=
  joinWith " "
    ((((splitOnPred Char.isWhitespace term.toList).map String.mk).filter
        (fun t => t ≠ "")).map
      (fun t => "\"" ++ escapeQuotes t ++ "\"*"))

/-- `search(term, { limit, completeOnly })` (database.js lines 168-188),
returning the result rows and the list of statement executions performed. -/
def search {Row : Type} (execSearch execSearchComplete : String → Int → List Row)
    (term : SearchTerm) (limit : Int) (completeOnly : Bool) :
    List Row × List (String × Int) :=
  match term with
  | .nonString => ([], [])
  | .str s =>
    if s = "" then ([], [])
    else if jsTrim s = "" then ([], [])
    else
      let lim := clampLimit limit
      let ftsTerm := buildFtsTerm s
      if completeOnly then (execSearchComplete ftsTerm lim, [(ftsTerm, lim)])
      else (execSearch ftsTerm lim, [(ftsTerm, lim)])

/-!
## Helper definitions for the claim statements
-/

/-- Overlay of an optional write result over a fallback value. -/
def overlayOpt (o v : Option ProductData) : Option ProductData :=
  match o with
  | some r => some r
  | none => v

/-- The last record of `rs` whose `id` equals `k`, folded over an
accumulator, mirroring the fold structure of `applyProducts` at one key. -/
def lastUpd (k : JsVal) (rs : List ProductData) (v : Option ProductData) :
    Option ProductData :=
  rs.foldl (fun acc r => if k = r.id then some r else acc) v

/-- The selection the specification describes for a sync run: the manifest
entries whose filename parses to a `(start, end)` pair (entries that fail to
parse are discarded), restricted to `end > W`.  This is the reference list
for the C2 theorem; `newDeltas` is the code's pipeline. -/
def manifestSelection (indexContent : String) (W : Nat) : List DeltaDesc :=
  ((jsSplit '\n' indexContent).filterMap parseDeltaEntry).filter
    (fun d => decide (W < d.endTs))

/-- A tags field value on which `?.join(' ')` throws: present (non-`null`,
not `undefined`) but not an array. -/
def badTagsField : JsVal → Bool
  | none => false
  | some .null => false
  | some (.arr _) => false
  | some _ => true

/-- The skip condition of the amended claim C8: the Transformer yields the
skip signal exactly when the line is empty, `JSON.parse` throws, the decoded
value is `null` (field access throws), `code` or `product_name` is falsy, or
a tags field is present but not an array (`.join` throws). -/
def skipsLine : RawLine → Bool
  | .line text parsed =>
    decide (text = "") ||
      match parsed with
      | none => true
      | some .null => true
      | some p =>
        !(jsTruthyV (getField p "code") && jsTruthyV (getField p "product_name")) ||
          badTagsField (getField p "categories_tags") ||
          badTagsField (getField p "labels_tags")

/-- A list of strings as a JSON array of strings. -/
def jsonListOfStrings : List String → JsonList
  | [] => .nil
  | s :: rest => .cons (.str s) (jsonListOfStrings rest)

/-!
## Concrete inputs used by counterexamples and witnesses
-/

/-- A well-formed product line with all four macro nutrients present and
completeness 0.9: the input on which claim C1 fails against the code. -/
def c1Json : Json :=
  .obj (.cons "code" (.str "123")
    (.cons "product_name" (.str "Test")
      (.cons "nutriments"
        (.obj (.cons "energy-kcal_100g" (.num 50)
          (.cons "fat_100g" (.num 1)
            (.cons "carbohydrates_100g" (.num 2)
              (.cons "proteins_100g" (.num 3) .nil)))))
        (.cons "completeness" (.num (mkRat 9 10)) .nil))))

/-- The raw text of the C1 input line (braces escaped for Lean). -/
def c1LineText : String :=
  "\x7b\"code\":\"123\",\"product_name\":\"Test\",\"nutriments\":\x7b\"energy-kcal_100g\":50,\"fat_100g\":1,\"carbohydrates_100g\":2,\"proteins_100g\":3\x7d,\"completeness\":0.9\x7d"

/-- The C1 failing input as a raw line. -/
def c1Line : RawLine := .line c1LineText (some c1Json)

/-- A line that decodes fine and has truthy `code` and `product_name`, but
whose `categories_tags` is the number 5, so `.join` throws and the
Transformer skips it: the C8 counterexample input. -/
def c8Json : Json :=
  .obj (.cons "code" (.str "1")
    (.cons "product_name" (.str "X")
      (.cons "categories_tags" (.num 5) .nil)))

/-- The C8 counterexample as a raw line. -/
def c8Line : RawLine :=
  .line "\x7b\"code\":\"1\",\"product_name\":\"X\",\"categories_tags\":5\x7d" (some c8Json)

/-- A fully populated, well-typed product line for the C9 and C10
witnesses. -/
def c9Json : Json :=
  .obj (.cons "code" (.str "111")
    (.cons "product_name" (.str "Nutella")
      (.cons "brands" (.str "Ferrero")
        (.cons "categories_tags"
          (.arr (.cons (.str "en:spreads") (.cons (.str "en:sweet") .nil)))
          .nil))))

/-- The C9 witness input as a raw line. -/
def c9Line : RawLine := .line "\x7braw\x7d" (some c9Json)

/-- C10 witness input: all four macro nutrients present with value 0 and a
completeness of 0.9. -/
def c10Json : Json :=
  .obj (.cons "code" (.str "7")
    (.cons "product_name" (.str "Zero")
      (.cons "nutriments"
        (.obj (.cons "energy-kcal_100g" (.num 0)
          (.cons "fat_100g" (.num 0)
            (.cons "carbohydrates_100g" (.num 0)
              (.cons "proteins_100g" (.num 0) .nil)))))
        (.cons "completeness" (.num (mkRat 9 10)) .nil))))

/-- The C10 witness input as a raw line. -/
def c10Line : RawLine := .line "\x7braw0\x7d" (some c10Json)

/-- A two-entry manifest for the C2 and C5 witnesses. -/
def witnessIndex : String :=
  "products_1_10.json.gz\nproducts_11_20.json.gz\nnot-a-delta.txt"

/-- First delta descriptor of the witness manifest. -/
def witnessDelta1 : DeltaDesc := ⟨"products_1_10.json.gz", 1, 10⟩

/-- Second delta descriptor of the witness manifest. -/
def witnessDelta2 : DeltaDesc := ⟨"products_11_20.json.gz", 11, 20⟩

/-- A fetch collaborator that succeeds on the first witness delta with an
empty payload and fails (transfer failure) on everything else. -/
def witnessFetchFailSecond : FetchLines :=
  fun f => if f = "products_1_10.json.gz" then some [] else none

/-!
## Theorems

Helper lemmas come first; each claim then gets exactly one theorem (plus a
witness where the theorem carries hypotheses).
-/

theorem lastUpd_cons (k : JsVal) (r : ProductData) (rs : List ProductData)
    (v : Option ProductData) :
    lastUpd k (r :: rs) v = lastUpd k rs (if k = r.id then some r else v) := rfl

theorem overlayOpt_assoc (a b c : Option ProductData) :
    overlayOpt (overlayOpt a b) c = overlayOpt a (overlayOpt b c) := by
  cases a <;> rfl

theorem overlayOpt_none_right (a : Option ProductData) : overlayOpt a none = a := by
  cases a <;> rfl

theorem lastUpd_overlay (k : JsVal) (rs : List ProductData) :
    ∀ v, lastUpd k rs v = overlayOpt (lastUpd k rs none) v := by
  induction rs with
  | nil => intro v; rfl
  | cons r rs ih =>
    intro v
    rw [lastUpd_cons, lastUpd_cons, ih, ih (if k = r.id then some r else none),
      overlayOpt_assoc]
    by_cases h : k = r.id <;> simp only [h, if_true, if_false] <;> rfl

theorem applyProducts_apply (rs : List ProductData) :
    ∀ (s : Store) (k : JsVal),
      applyProducts s rs k = overlayOpt (lastUpd k rs none) (s k) := by
  induction rs with
  | nil => intro s k; rfl
  | cons r rs ih =>
    intro s k
    show applyProducts (upsertProduct s r) rs k = _
    rw [ih]
    conv_rhs => rw [lastUpd_cons, lastUpd_overlay, overlayOpt_assoc]
    refine congrArg (overlayOpt (lastUpd k rs none)) ?_
    by_cases h : k = r.id <;> simp [upsertProduct, h, overlayOpt]

/-- **C4.** Applying the same delta file twice leaves the primary store in a
state identical to applying it once: each line transforms to the same record
both times (the Transformer is a pure function), and `INSERT OR REPLACE` is a
per-id full-row replace, so the second pass rewrites every row with the value
it already has.  The store state here is the data columns; the SQLite
`created_at`/`updated_at` audit columns record wall-clock write time and are
outside the claim's "in effect" state. -/
theorem c4_delta_reapplication_idempotent (s : Store) (lines : List RawLine) :
    applyLines (applyLines s lines) lines = applyLines s lines := by
  funext k
  unfold applyLines
  rw [applyProducts_apply, applyProducts_apply]
  cases lastUpd k (lines.filterMap transformProduct) none <;> rfl

/-- **C1.** The claim says the stored Record's `complete_macros` field is
true iff the four macro nutrients are present and `completeness > 0.8`.  The
code cannot satisfy this: `transformProduct` computes the condition but puts
no `complete_macros` key in its output object, so (a) the Bulk Loader's
insert statement, whose named parameters include `complete_macros`, fails to
bind ("Missing named parameter") on every record, and (b) the Delta
Synchronizer's upsert statement omits the column entirely, storing SQL NULL.
The completeness-forcing half does work: on the C1 input the stored
`completeness` is 1. -/
theorem c1_complete_macros_never_stored :
    runNamedStmt importInsertColumns productDataKeys = .error "Missing named parameter"
    ∧ "complete_macros" ∈ importInsertColumns
    ∧ "complete_macros" ∉ productDataKeys
    ∧ "complete_macros" ∉ updateUpsertColumns
    ∧ "complete_macros" ∉ updateUpsertNamedParams
    ∧ (transformProduct c1Line).map (fun r => r.completeness) = some (.num 1) := by
  refine ⟨rfl, ?_, ?_, ?_, ?_, ?_⟩ <;> decide

/-- **C6.** The effective result bound of `search` is the requested limit
clamped to 1..100: every statement execution the call performs uses
`clampLimit limit`, which lies between 1 and 100, and a requested limit of
1000 produces exactly the same call as a requested limit of 100. -/
theorem c6_search_limit_clamped {Row : Type}
    (execSearch execSearchComplete : String → Int → List Row)
    (term : SearchTerm) (completeOnly : Bool) (limit : Int) :
    ((search execSearch execSearchComplete term limit completeOnly).2.all
        (fun q => decide (q.2 = clampLimit limit))) = true
    ∧ 1 ≤ clampLimit limit ∧ clampLimit limit ≤ 100
    ∧ search execSearch execSearchComplete term 1000 completeOnly
        = search execSearch execSearchComplete term 100 completeOnly := by
  refine ⟨?_, ?_, ?_, ?_⟩
  · cases term with
    | nonString => rfl
    | str s =>
      by_cases h1 : s = "" <;> by_cases h2 : jsTrim s = "" <;>
        cases completeOnly <;> simp [search, h1, h2]
  · exact le_min (le_max_right limit 1) (by norm_num)
  · exact min_le_right _ _
  · have hc : clampLimit (1000 : Int) = clampLimit (100 : Int) := by decide
    cases term with
    | nonString => rfl
    | str s =>
      by_cases h1 : s = "" <;> by_cases h2 : jsTrim s = "" <;>
        cases completeOnly <;> simp [search, h1, h2, hc]

/-- **C7.** A `term` that is not a string, or whose string value is empty or
whitespace-only, makes `search` return the empty sequence without executing
any statement against the store (and without raising an error: the function
returns normally). -/
theorem c7_invalid_term_empty_result {Row : Type}
    (execSearch execSearchComplete : String → Int → List Row)
    (limit : Int) (completeOnly : Bool) (term : SearchTerm)
    (h : term = .nonString ∨ ∃ s, term = .str s ∧ jsTrim s = "") :
    search execSearch execSearchComplete term limit completeOnly = ([], []) := by
  rcases h with h | ⟨s, rfl, hs⟩
  · subst h; rfl
  · by_cases h1 : s = "" <;> simp [search, h1, hs]

/-- Witness for C7 at a whitespace-only term. -/
theorem c7_invalid_term_witness :
    search (fun _ _ => ([] : List Nat)) (fun _ _ => []) (.str " ") 5 true = ([], []) :=
  c7_invalid_term_empty_result (fun _ _ => []) (fun _ _ => []) 5 true (.str " ")
    (Or.inr ⟨" ", rfl, by decide⟩)

theorem matchDeltaAt_suffix (cs : List Char) (r : Nat × Nat)
    (h : matchDeltaAt cs = some r) : ".json.gz".toList <:+ cs := by
  match cs with
  | [] => exact absurd h (by simp [matchDeltaAt])
  | c :: rest =>
    rw [matchDeltaAt] at h
    by_cases hc : c = '_'
    case neg => rw [if_neg hc] at h; simp at h
    case pos =>
    rw [if_pos hc] at h
    subst hc
    rcases hd : rest.dropWhile (·.isDigit) with _ | ⟨c2, rest2⟩ <;> rw [hd] at h <;>
      dsimp only at h
    · exact absurd h (by simp)
    · by_cases hc2 : c2 = '_'
      case neg => rw [if_neg hc2] at h; exact absurd h (by simp)
      case pos =>
      rw [if_pos hc2] at h
      subst hc2
      by_cases h1 : (rest.takeWhile (·.isDigit)).isEmpty
      · rw [if_pos h1] at h; exact absurd h (by simp)
      rw [if_neg h1] at h
      by_cases h2 : (rest2.takeWhile (·.isDigit)).isEmpty
      · rw [if_pos h2] at h; exact absurd h (by simp)
      rw [if_neg h2] at h
      by_cases h3 : rest2.dropWhile (·.isDigit) = ".json.gz".toList
      case neg => rw [if_neg h3] at h; exact absurd h (by simp)
      case pos =>
      have e2 : rest2.takeWhile (·.isDigit) ++ ".json.gz".toList = rest2 := by
        conv_rhs => rw [← List.takeWhile_append_dropWhile (p := (·.isDigit)) (l := rest2)]
        rw [h3]
      have e1 : rest.takeWhile (·.isDigit) ++ '_' :: rest2 = rest := by
        conv_rhs => rw [← List.takeWhile_append_dropWhile (p := (·.isDigit)) (l := rest)]
        rw [hd]
      refine ⟨'_' :: (rest.takeWhile (·.isDigit) ++ '_' :: rest2.takeWhile (·.isDigit)), ?_⟩
      rw [List.cons_append, List.append_assoc, List.cons_append, e2, e1]

theorem scanDeltaMatch_suffix (cs : List Char) (r : Nat × Nat)
    (h : scanDeltaMatch cs = some r) : ".json.gz".toList <:+ cs := by
  induction cs with
  | nil => exact absurd h (by simp [scanDeltaMatch])
  | cons c rest ih =>
    rw [scanDeltaMatch] at h
    rcases hm : matchDeltaAt (c :: rest) with _ | r2 <;> rw [hm] at h
    · obtain ⟨t, ht⟩ := ih h
      exact ⟨c :: t, by rw [List.cons_append, ht]⟩
    · exact matchDeltaAt_suffix _ _ hm

theorem parseDeltaEntry_endsWith (f : String) (d : DeltaDesc)
    (h : parseDeltaEntry f = some d) : strEndsWith f ".json.gz" = true := by
  unfold parseDeltaEntry at h
  rcases hs : scanDeltaMatch f.toList with _ | r <;> rw [hs] at h
  · simp at h
  · rw [strEndsWith, List.isSuffixOf_iff_suffix]
    exact scanDeltaMatch_suffix _ _ hs

theorem filter_endsWith_filterMap_parse (l : List String) :
    (l.filter (fun f => strEndsWith f ".json.gz")).filterMap parseDeltaEntry
      = l.filterMap parseDeltaEntry := by
  induction l with
  | nil => rfl
  | cons a l ih =>
    by_cases he : strEndsWith a ".json.gz" = true
    · rw [List.filter_cons, if_pos he, List.filterMap_cons, List.filterMap_cons, ih]
    · rw [List.filter_cons, if_neg he, List.filterMap_cons, ih]
      rcases hp : parseDeltaEntry a with _ | d
      · rfl
      · exact absurd (parseDeltaEntry_endsWith a d hp) he

theorem kept_filterMap_id (l : List String) (W : Nat) :
    ((l.map parseDeltaEntry).filter (fun o =>
        match o with
        | some dd => decide (W < dd.endTs)
        | none => false)).filterMap id
      = (l.filterMap parseDeltaEntry).filter (fun d => decide (W < d.endTs)) := by
  induction l with
  | nil => rfl
  | cons a l ih =>
    rw [List.map_cons, List.filterMap_cons]
    rcases hp : parseDeltaEntry a with _ | d
    · rw [List.filter_cons, if_neg (by simp), ih]
    · by_cases hw : W < d.endTs
      · rw [List.filter_cons, if_pos (by simpa using hw), List.filter_cons,
          if_pos (by simpa using hw), List.filterMap_cons, ih]
        rfl
      · rw [List.filter_cons, if_neg (by simpa using hw), List.filter_cons,
          if_neg (by simpa using hw), ih]

theorem insertByEnd_perm (x : DeltaDesc) (l : List DeltaDesc) :
    (insertByEnd x l).Perm (x :: l) := by
  induction l with
  | nil => exact List.Perm.refl _
  | cons y ys ih =>
    rw [insertByEnd]
    by_cases h : x.endTs < y.endTs
    · rw [if_pos h]
    · rw [if_neg h]
      exact (ih.cons y).trans (List.Perm.swap x y ys)

theorem sortByEnd_perm (l : List DeltaDesc) : (sortByEnd l).Perm l := by
  induction l with
  | nil => exact List.Perm.refl _
  | cons x xs ih =>
    exact (insertByEnd_perm x (sortByEnd xs)).trans (ih.cons x)

theorem mem_insertByEnd (y x : DeltaDesc) (l : List DeltaDesc) :
    y ∈ insertByEnd x l ↔ y = x ∨ y ∈ l := by
  rw [(insertByEnd_perm x l).mem_iff, List.mem_cons]

theorem pairwise_insertByEnd (x : DeltaDesc) (l : List DeltaDesc)
    (h : l.Pairwise (fun a b => a.endTs ≤ b.endTs)) :
    (insertByEnd x l).Pairwise (fun a b => a.endTs ≤ b.endTs) := by
  induction l with
  | nil => simp [insertByEnd]
  | cons y ys ih =>
    rw [insertByEnd]
    rw [List.pairwise_cons] at h
    by_cases hlt : x.endTs < y.endTs
    · rw [if_pos hlt]
      refine List.pairwise_cons.mpr ⟨?_, List.pairwise_cons.mpr h⟩
      intro z hz
      rcases List.mem_cons.mp hz with rfl | hz2
      · exact le_of_lt hlt
      · exact le_trans (le_of_lt hlt) (h.1 z hz2)
    · rw [if_neg hlt]
      refine List.pairwise_cons.mpr ⟨?_, ih h.2⟩
      intro z hz
      rcases (mem_insertByEnd z x ys).mp hz with rfl | hz2
      · exact Nat.le_of_not_lt hlt
      · exact h.1 z hz2

theorem sortByEnd_pairwise (l : List DeltaDesc) :
    (sortByEnd l).Pairwise (fun a b => a.endTs ≤ b.endTs) := by
  induction l with
  | nil => simp [sortByEnd]
  | cons x xs ih => exact pairwise_insertByEnd x (sortByEnd xs) ih

theorem newDeltas_perm (idx : String) (W : Nat) :
    (newDeltas idx W).Perm (manifestSelection idx W) := by
  unfold newDeltas manifestSelection
  refine (sortByEnd_perm _).trans ?_
  rw [kept_filterMap_id, filter_endsWith_filterMap_parse]

theorem newDeltas_pairwise (idx : String) (W : Nat) :
    (newDeltas idx W).Pairwise (fun a b => a.endTs ≤ b.endTs) :=
  sortByEnd_pairwise _

theorem mem_newDeltas_gt (idx : String) (W : Nat) (d : DeltaDesc)
    (hd : d ∈ newDeltas idx W) : W < d.endTs := by
  have hm := (newDeltas_perm idx W).mem_iff.mp hd
  unfold manifestSelection at hm
  simpa using (List.mem_filter.mp hm).2

theorem nondecreasing_map_of_pairwise (l : List DeltaDesc)
    (h : l.Pairwise (fun a b => a.endTs ≤ b.endTs)) :
    nondecreasing (l.map (fun d => d.endTs)) = true := by
  induction l with
  | nil => rfl
  | cons d t ih =>
    rw [List.pairwise_cons] at h
    cases t with
    | nil => rfl
    | cons d2 t2 =>
      rw [List.map_cons, List.map_cons, nondecreasing, Bool.and_eq_true]
      refine ⟨decide_eq_true (h.1 d2 (by simp)), ?_⟩
      rw [← List.map_cons]
      exact ih h.2

theorem appliedDeltas_runLoop_all (f : FetchLines) (ds : List DeltaDesc)
    (hall : ∀ name, (f name).isSome = true) :
    appliedDeltas (runLoop f ds) = ds := by
  induction ds with
  | nil => rfl
  | cons d rest ih =>
    rw [runLoop]
    rcases hf : f d.filename with _ | lines
    · exact absurd (hall d.filename) (by rw [hf]; simp)
    · rw [appliedDeltas, List.filterMap_cons, List.filterMap_cons]
      simpa [appliedDeltas] using ih

/-- **C2.** In a run with persisted watermark `W` where every fetch succeeds,
the delta files applied are exactly `newDeltas`, which is a permutation of
the manifest entries whose filename parses to a `(start, end)` pair with
`end > W` (entries failing to parse are discarded, and the code's additional
`.json.gz` pre-filter removes nothing that would parse), in ascending order
of `end`. -/
theorem c2_delta_selection_and_order (f : FetchLines) (idx : String) (W : Nat)
    (hall : ∀ name, (f name).isSome = true) :
    appliedDeltas (runUpdateEvents f idx W) = newDeltas idx W
    ∧ (newDeltas idx W).Perm (manifestSelection idx W)
    ∧ nondecreasing ((newDeltas idx W).map (fun d => d.endTs)) = true :=
  ⟨appliedDeltas_runLoop_all f (newDeltas idx W) hall,
   newDeltas_perm idx W,
   nondecreasing_map_of_pairwise _ (newDeltas_pairwise idx W)⟩

/-- Witness for C2 on a concrete three-line manifest (one non-delta entry)
with an always-succeeding fetch. -/
theorem c2_delta_selection_witness :
    appliedDeltas (runUpdateEvents (fun _ => some []) witnessIndex 0)
        = newDeltas witnessIndex 0
    ∧ (newDeltas witnessIndex 0).Perm (manifestSelection witnessIndex 0)
    ∧ nondecreasing ((newDeltas witnessIndex 0).map (fun d => d.endTs)) = true :=
  c2_delta_selection_and_order (fun _ => some []) witnessIndex 0 (fun _ => rfl)

theorem persistsFollowApplies_runLoop (f : FetchLines) (ds : List DeltaDesc) :
    persistsFollowApplies (runLoop f ds) = true := by
  induction ds with
  | nil => rfl
  | cons d rest ih =>
    rw [runLoop]
    rcases hf : f d.filename with _ | lines
    · rfl
    · rw [persistsFollowApplies, ih, decide_eq_true rfl]
      rfl

theorem runLoop_watermarks_nondecreasing (f : FetchLines) (ds : List DeltaDesc) :
    ∀ W, (∀ d ∈ ds, W ≤ d.endTs) →
      ds.Pairwise (fun a b => a.endTs ≤ b.endTs) →
      nondecreasing (W :: persistedWatermarks (runLoop f ds)) = true := by
  induction ds with
  | nil => intro W _ _; rfl
  | cons d rest ih =>
    intro W hW hp
    rw [runLoop]
    rcases hf : f d.filename with _ | lines
    · rfl
    · rw [List.pairwise_cons] at hp
      have hrec := ih d.endTs (fun d2 hd2 => hp.1 d2 hd2) hp.2
      rw [persistedWatermarks, List.filterMap_cons, List.filterMap_cons]
      simp only
      rw [nondecreasing, Bool.and_eq_true]
      exact ⟨decide_eq_true (hW d (by simp)), hrec⟩

/-- **C3.** In every run, each applied delta file is immediately followed by
persisting the watermark as exactly that file's `end` timestamp, before the
next file is processed; and the sequence of persisted watermark values,
starting from the prior watermark `W`, is monotonically nondecreasing — the
watermark is never rolled back. -/
theorem c3_watermark_persistence_monotone (f : FetchLines) (idx : String) (W : Nat) :
    persistsFollowApplies (runUpdateEvents f idx W) = true
    ∧ nondecreasing (W :: persistedWatermarks (runUpdateEvents f idx W)) = true :=
  ⟨persistsFollowApplies_runLoop f (newDeltas idx W),
   runLoop_watermarks_nondecreasing f (newDeltas idx W) W
     (fun d hd => Nat.le_of_lt (mem_newDeltas_gt idx W d hd))
     (newDeltas_pairwise idx W)⟩

theorem runLoop_fail_applied (f : FetchLines) (post : List DeltaDesc) (d : DeltaDesc)
    (hd : f d.filename = none) :
    ∀ (pre : List DeltaDesc), (∀ d2 ∈ pre, (f d2.filename).isSome = true) →
      appliedDeltas (runLoop f (pre ++ d :: post)) = pre := by
  intro pre
  induction pre with
  | nil =>
    intro _
    rw [List.nil_append, runLoop, hd]
    rfl
  | cons dp pre ih =>
    intro hall
    rw [List.cons_append, runLoop]
    rcases hf : f dp.filename with _ | lines
    · exact absurd (hall dp (by simp)) (by rw [hf]; simp)
    · rw [appliedDeltas, List.filterMap_cons, List.filterMap_cons]
      simp only
      have := ih (fun d2 hd2 => hall d2 (by simp [hd2]))
      rw [appliedDeltas] at this
      rw [this]

theorem runLoopState_fail_watermark (f : FetchLines) (post : List DeltaDesc)
    (d : DeltaDesc) (hd : f d.filename = none) :
    ∀ (pre : List DeltaDesc) (st : SyncState),
      (∀ d2 ∈ pre, (f d2.filename).isSome = true) →
      (runLoopState f (pre ++ d :: post) st).watermark
        = (pre.map (fun x => x.endTs)).getLastD st.watermark := by
  intro pre
  induction pre with
  | nil =>
    intro st _
    rw [List.nil_append, runLoopState, hd]
    rfl
  | cons dp pre ih =>
    intro st hall
    rw [List.cons_append, runLoopState]
    rcases hf : f dp.filename with _ | lines
    · exact absurd (hall dp (by simp)) (by rw [hf]; simp)
    · rw [ih _ (fun d2 hd2 => hall d2 (by simp [hd2])), List.map_cons,
        List.getLastD_cons]

/-- **C5.** If fetching or decoding the delta file `d` fails in a run whose
selection is `pre ++ d :: post` (with every earlier fetch succeeding), then
no file at or after `d` is applied — the applied files are exactly `pre` —
and the persisted watermark ends at the `end` timestamp of the last fully
applied file (the initial watermark `W` when `pre` is empty): watermark
advances already committed for earlier files in the run are kept. -/
theorem c5_failure_aborts_preserves_watermark (f : FetchLines) (idx : String)
    (W : Nat) (s0 : Store) (pre post : List DeltaDesc) (d : DeltaDesc)
    (hsel : newDeltas idx W = pre ++ d :: post)
    (hpre : ∀ d2 ∈ pre, (f d2.filename).isSome = true)
    (hd : f d.filename = none) :
    appliedDeltas (runUpdateEvents f idx W) = pre
    ∧ (runLoopState f (newDeltas idx W) ⟨s0, W⟩).watermark
        = (pre.map (fun x => x.endTs)).getLastD W := by
  constructor
  · rw [runUpdateEvents, hsel]
    exact runLoop_fail_applied f post d hd pre hpre
  · rw [hsel]
    exact runLoopState_fail_watermark f post d hd pre ⟨s0, W⟩ hpre

/-- Witness for C5: the concrete manifest, a fetch that succeeds on the
first delta and fails on the second. -/
theorem c5_failure_witness :
    appliedDeltas (runUpdateEvents witnessFetchFailSecond witnessIndex 0)
        = [witnessDelta1]
    ∧ (runLoopState witnessFetchFailSecond (newDeltas witnessIndex 0)
        ⟨fun _ => none, 0⟩).watermark
        = ([witnessDelta1].map (fun x => x.endTs)).getLastD 0 :=
  c5_failure_aborts_preserves_watermark witnessFetchFailSecond witnessIndex 0
    (fun _ => none) [witnessDelta1] [] witnessDelta2
    (by decide) (by decide) (by decide)

theorem tagsJoin_error_iff (v : JsVal) :
    tagsJoin v = .error () ↔ badTagsField v = true := by
  rcases v with _ | j
  · simp [tagsJoin, badTagsField]
  · cases j <;> simp [tagsJoin, badTagsField]

theorem c8_aux (text : String) (p : Json) (ht : ¬text = "") (hnull : ¬p = .null) :
    (transformProduct (.line text (some p)) = none)
      ↔ (!(jsTruthyV (getField p "code") && jsTruthyV (getField p "product_name"))
          || badTagsField (getField p "categories_tags")
          || badTagsField (getField p "labels_tags")) = true := by
  rw [transformProduct, if_neg ht, transformParsed, if_neg hnull]
  by_cases hg : (jsTruthyV (getField p "code") && jsTruthyV (getField p "product_name")) = true
  case neg =>
    rw [Bool.not_eq_true] at hg
    rw [hg]
    simp
  case pos =>
    rw [hg]
    simp only [Bool.not_true, Bool.false_or, Bool.or_eq_true, if_false]
    rcases hc : tagsJoin (getField p "categories_tags") with e | cj
    · cases e
      simp [(tagsJoin_error_iff _).mp hc]
    · rcases hl : tagsJoin (getField p "labels_tags") with e | lj
      · cases e
        simp [(tagsJoin_error_iff _).mp hl]
      · have hc2 : badTagsField (getField p "categories_tags") = false := by
          rw [← Bool.not_eq_true, ← tagsJoin_error_iff, hc]
          simp
        have hl2 : badTagsField (getField p "labels_tags") = false := by
          rw [← Bool.not_eq_true, ← tagsJoin_error_iff, hl]
          simp
        simp [hc2, hl2]

/-- **C8 counterexample.** The claim says the Transformer returns a Record
whenever the line decodes and `code`/`name` are present; on `c8Line` the line
decodes (the parsed value is supplied), `code` and `product_name` are present
and truthy, yet the Transformer skips the line (its `categories_tags` is a
number, so `.join` throws and the catch-all returns `null`). -/
theorem c8_skip_counterexample :
    transformProduct c8Line = none
    ∧ getField c8Json "code" = some (.str "1")
    ∧ getField c8Json "product_name" = some (.str "X")
    ∧ jsTruthyV (getField c8Json "code") = true
    ∧ jsTruthyV (getField c8Json "product_name") = true
    ∧ getField c8Json "categories_tags" = some (.num 5) := by
  refine ⟨?_, ?_, ?_, ?_, ?_, ?_⟩ <;> decide

/-- **C8 (amended).** The Transformer returns the skip signal — never an
error, the function is total — exactly when the line is empty, fails to
decode as JSON, the decoded value is `null` or lacks truthy `code` or
`product_name` fields, or a tags field is present but not an array (its
`.join` throws and is caught); in every other case it returns a Record. -/
theorem c8_skip_iff (l : RawLine) :
    (transformProduct l = none) ↔ skipsLine l = true := by
  obtain ⟨text, parsed⟩ := l
  by_cases ht : text = ""
  · simp [transformProduct, skipsLine, ht]
  · cases parsed with
    | none => simp [transformProduct, skipsLine, ht]
    | some p =>
      cases p with
      | null =>
        rw [transformProduct, if_neg ht, transformParsed, if_pos rfl]
        simp [skipsLine, ht]
      | bool b => rw [c8_aux text _ ht (by simp)]; simp [skipsLine, ht]
      | num q => rw [c8_aux text _ ht (by simp)]; simp [skipsLine, ht]
      | str s => rw [c8_aux text _ ht (by simp)]; simp [skipsLine, ht]
      | arr xs => rw [c8_aux text _ ht (by simp)]; simp [skipsLine, ht]
      | obj fs => rw [c8_aux text _ ht (by simp)]; simp [skipsLine, ht]

theorem getField_some_ne_null (p : Json) (k : String) (x : Json)
    (h : getField p k = some x) : ¬p = .null := by
  cases p <;> simp [getField] at h ⊢

theorem transformProduct_ok (text : String) (p : Json) (catJoin labJoin : Option String)
    (ht : ¬text = "") (hnull : ¬p = .null)
    (hg : (jsTruthyV (getField p "code") && jsTruthyV (getField p "product_name")) = true)
    (hc : tagsJoin (getField p "categories_tags") = .ok catJoin)
    (hl : tagsJoin (getField p "labels_tags") = .ok labJoin) :
    transformProduct (.line text (some p)) = some (transformedRecord text p catJoin labJoin) := by
  rw [transformProduct, if_neg ht, transformParsed, if_neg hnull, hg, hc, hl]
  rfl

theorem jsArrJoin_strings (ts : List String) :
    jsArrJoin " " (jsonListOfStrings ts) = joinWith " " ts := by
  induction ts with
  | nil => rfl
  | cons s rest ih =>
    cases rest with
    | nil => rfl
    | cons s2 rest2 =>
      show jsElemString (.str s) ++ " " ++ jsArrJoin " " (jsonListOfStrings (s2 :: rest2))
          = s ++ " " ++ joinWith " " (s2 :: rest2)
      rw [ih]
      rfl

/-- **C10.** On an accepted line whose nutrient map carries the four macro
nutrients with the explicit value `0` and a completeness above 0.8, the
Transformer stores `null` (`none`) for each of those nutrient fields — the
JavaScript `value || null` turns the falsy `0` into `null` — while the same
zero values still count as *present* for the complete-macros determination
(`value != null`), as witnessed by the normalized completeness being forced
to 1.  A zero nutrient value is therefore indistinguishable in the stored
Record from an absent one, which is also stored as `none`. -/
theorem c10_zero_nutrient_stored_null (text : String) (p nutr : Json) (q : ℚ)
    (r : ProductData)
    (hnutr : getField p "nutriments" = some nutr)
    (htr : jsTruthy nutr = true)
    (he : getField nutr "energy-kcal_100g" = some (.num 0))
    (hf : getField nutr "fat_100g" = some (.num 0))
    (hcarb : getField nutr "carbohydrates_100g" = some (.num 0))
    (hprot : getField nutr "proteins_100g" = some (.num 0))
    (hcompl : getField p "completeness" = some (.num q))
    (hq : mkRat 4 5 < q)
    (hacc : transformProduct (.line text (some p)) = some r) :
    r.energy_kcal = none ∧ r.fat_100g = none ∧ r.carbohydrates_100g = none
      ∧ r.proteins_100g = none ∧ r.completeness = .num 1 := by
  have hnull : ¬p = .null := getField_some_ne_null p "nutriments" nutr hnutr
  by_cases ht : text = ""
  · rw [transformProduct, if_pos ht] at hacc
    exact absurd hacc (by simp)
  by_cases hg : (jsTruthyV (getField p "code") && jsTruthyV (getField p "product_name")) = true
  case neg =>
    rw [Bool.not_eq_true] at hg
    rw [transformProduct, if_neg ht, transformParsed, if_neg hnull, hg] at hacc
    exact absurd hacc (by simp)
  case pos =>
  rcases hc : tagsJoin (getField p "categories_tags") with e | cj
  · rw [transformProduct, if_neg ht, transformParsed, if_neg hnull, hg, hc] at hacc
    exact absurd hacc (by simp)
  rcases hl : tagsJoin (getField p "labels_tags") with e | lj
  · rw [transformProduct, if_neg ht, transformParsed, if_neg hnull, hg, hc, hl] at hacc
    exact absurd hacc (by simp)
  rw [transformProduct_ok text p cj lj ht hnull hg hc hl, Option.some.injEq] at hacc
  subst hacc
  rw [transformedRecord]
  simp only [hnutr, jsOrJson, htr, if_true, he, hf, hcarb, hprot, hcompl]
  refine ⟨by simp [jsOrNull, jsTruthy], by simp [jsOrNull, jsTruthy],
    by simp [jsOrNull, jsTruthy], by simp [jsOrNull, jsTruthy], ?_⟩
  have hmac : jsNonNull (some (Json.num 0)) = true := rfl
  have hgt : jsGT (some (Json.num q)) (mkRat 4 5) = true := by
    simp [jsGT, jsToNumberOpt, hq]
  simp [hmac, hgt, jsNonNull]

/-- Witness for C10 at the concrete `c10Line`. -/
theorem c10_zero_nutrient_witness :
    (transformedRecord "\x7braw0\x7d" c10Json none none).energy_kcal = none
    ∧ (transformedRecord "\x7braw0\x7d" c10Json none none).fat_100g = none
    ∧ (transformedRecord "\x7braw0\x7d" c10Json none none).carbohydrates_100g = none
    ∧ (transformedRecord "\x7braw0\x7d" c10Json none none).proteins_100g = none
    ∧ (transformedRecord "\x7braw0\x7d" c10Json none none).completeness = .num 1 :=
  c10_zero_nutrient_stored_null "\x7braw0\x7d" c10Json
    (.obj (.cons "energy-kcal_100g" (.num 0)
      (.cons "fat_100g" (.num 0)
        (.cons "carbohydrates_100g" (.num 0)
          (.cons "proteins_100g" (.num 0) .nil)))))
    (mkRat 9 10) (transformedRecord "\x7braw0\x7d" c10Json none none)
    (by decide) (by decide) (by decide) (by decide) (by decide) (by decide)
    (by decide) (by decide) (by decide)

theorem filterMap_conv_eq (parts : List (Option String)) :
    (parts.map (fun o => o.map Json.str)).filterMap
        (fun v => match v with
          | some j => if jsTruthy j then some (jsToString j) else none
          | none => none)
      = (parts.map (fun o => o.getD "")).filter (fun s => decide (¬s = "")) := by
  induction parts with
  | nil => rfl
  | cons o rest ih =>
    rcases o with _ | x
    · simpa [List.filterMap_cons, List.filter_cons] using ih
    · by_cases hx : x = ""
      · subst hx
        simpa [List.filterMap_cons, List.filter_cons, jsTruthy] using ih
      · simpa [List.filterMap_cons, List.filter_cons, hx, jsTruthy, jsToString] using ih

theorem joinTruthyParts_five (o1 o2 o3 o4 o5 : Option String) :
    joinTruthyParts [o1.map Json.str, o2.map Json.str, o3.map Json.str,
        o4.map Json.str, o5.map Json.str]
      = joinWith " " (([o1.getD "", o2.getD "", o3.getD "", o4.getD "",
          o5.getD ""]).filter (fun s => decide (¬s = ""))) := by
  rw [joinTruthyParts]
  exact congrArg (joinWith " ") (filterMap_conv_eq [o1, o2, o3, o4, o5])


theorem joinWith_nil (sep : String) : joinWith sep [] = "" := rfl

theorem c9_tail (text : String) (p : Json) (name codeStr : String)
    (B CJ LJ : Option String)
    (hname : getField p "product_name" = some (.str name))
    (hcode : getField p "code" = some (.str codeStr))
    (hbrands : getField p "brands" = B.map Json.str) :
    (transformedRecord text p CJ LJ).search_text
      = joinWith " " (([name, B.getD "", codeStr, CJ.getD "", LJ.getD ""]).filter
          (fun s => decide (¬s = ""))) := by
  show joinTruthyParts [getField p "product_name", getField p "brands",
      getField p "code", CJ.map Json.str, LJ.map Json.str] = _
  rw [hname, hcode, hbrands]
  have h5 := joinTruthyParts_five (some name) B (some codeStr) CJ LJ
  simpa using h5

/-- **C9.** For every accepted raw line whose fields follow the documented
source-line format (name/brands/code strings, tags arrays of strings, with
brands and the tag lists possibly absent), the derived `search_text` equals
the space-joined, empty-filtered concatenation of, in order: product name,
brands, code, the flattened (space-joined) category tag list, and the
flattened label tag list. -/
theorem c9_search_text_derivation
    (text name brandsStr codeStr : String) (catTags labTags : List String)
    (p : Json) (r : ProductData)
    (hname : getField p "product_name" = some (.str name))
    (hcode : getField p "code" = some (.str codeStr))
    (hbrands : getField p "brands" = some (.str brandsStr)
      ∨ (getField p "brands" = none ∧ brandsStr = ""))
    (hcats : getField p "categories_tags" = some (.arr (jsonListOfStrings catTags))
      ∨ (getField p "categories_tags" = none ∧ catTags = []))
    (hlabs : getField p "labels_tags" = some (.arr (jsonListOfStrings labTags))
      ∨ (getField p "labels_tags" = none ∧ labTags = []))
    (hacc : transformProduct (.line text (some p)) = some r) :
    r.search_text = joinWith " "
      (([name, brandsStr, codeStr, joinWith " " catTags,
          joinWith " " labTags]).filter (fun s => decide (¬s = ""))) := by
  have hnull : ¬p = .null := getField_some_ne_null p "code" _ hcode
  by_cases ht : text = ""
  · rw [transformProduct, if_pos ht] at hacc
    exact absurd hacc (by simp)
  by_cases hg : (jsTruthyV (getField p "code") && jsTruthyV (getField p "product_name")) = true
  case neg =>
    rw [Bool.not_eq_true] at hg
    rw [transformProduct, if_neg ht, transformParsed, if_neg hnull, hg] at hacc
    exact absurd hacc (by simp)
  case pos =>
  rcases hbrands with hb | ⟨hb, rfl⟩ <;>
    rcases hcats with hcats | ⟨hcats, rfl⟩ <;>
      rcases hlabs with hlabs | ⟨hlabs, rfl⟩
  · have hc : tagsJoin (getField p "categories_tags")
        = .ok (some (jsArrJoin " " (jsonListOfStrings catTags))) := by
      rw [hcats]
      rfl
    have hl : tagsJoin (getField p "labels_tags")
        = .ok (some (jsArrJoin " " (jsonListOfStrings labTags))) := by
      rw [hlabs]
      rfl
    rw [transformProduct_ok text p _ _ ht hnull hg hc hl, Option.some.injEq] at hacc
    subst hacc
    rw [c9_tail text p name codeStr (some brandsStr) _ _ hname hcode (by rw [hb]; rfl)]
    simp only [Option.getD_some, Option.getD_none, jsArrJoin_strings, joinWith_nil]
  · have hc : tagsJoin (getField p "categories_tags")
        = .ok (some (jsArrJoin " " (jsonListOfStrings catTags))) := by
      rw [hcats]
      rfl
    have hl : tagsJoin (getField p "labels_tags") = .ok none := by
      rw [hlabs]
      rfl
    rw [transformProduct_ok text p _ _ ht hnull hg hc hl, Option.some.injEq] at hacc
    subst hacc
    rw [c9_tail text p name codeStr (some brandsStr) _ _ hname hcode (by rw [hb]; rfl)]
    simp only [Option.getD_some, Option.getD_none, jsArrJoin_strings, joinWith_nil]
  · have hc : tagsJoin (getField p "categories_tags") = .ok none := by
      rw [hcats]
      rfl
    have hl : tagsJoin (getField p "labels_tags")
        = .ok (some (jsArrJoin " " (jsonListOfStrings labTags))) := by
      rw [hlabs]
      rfl
    rw [transformProduct_ok text p _ _ ht hnull hg hc hl, Option.some.injEq] at hacc
    subst hacc
    rw [c9_tail text p name codeStr (some brandsStr) _ _ hname hcode (by rw [hb]; rfl)]
    simp only [Option.getD_some, Option.getD_none, jsArrJoin_strings, joinWith_nil]
  · have hc : tagsJoin (getField p "categories_tags") = .ok none := by
      rw [hcats]
      rfl
    have hl : tagsJoin (getField p "labels_tags") = .ok none := by
      rw [hlabs]
      rfl
    rw [transformProduct_ok text p _ _ ht hnull hg hc hl, Option.some.injEq] at hacc
    subst hacc
    rw [c9_tail text p name codeStr (some brandsStr) _ _ hname hcode (by rw [hb]; rfl)]
    simp only [Option.getD_some, Option.getD_none, jsArrJoin_strings, joinWith_nil]
  · have hc : tagsJoin (getField p "categories_tags")
        = .ok (some (jsArrJoin " " (jsonListOfStrings catTags))) := by
      rw [hcats]
      rfl
    have hl : tagsJoin (getField p "labels_tags")
        = .ok (some (jsArrJoin " " (jsonListOfStrings labTags))) := by
      rw [hlabs]
      rfl
    rw [transformProduct_ok text p _ _ ht hnull hg hc hl, Option.some.injEq] at hacc
    subst hacc
    rw [c9_tail text p name codeStr (none : Option String) _ _ hname hcode (by rw [hb]; rfl)]
    simp only [Option.getD_some, Option.getD_none, jsArrJoin_strings, joinWith_nil]
  · have hc : tagsJoin (getField p "categories_tags")
        = .ok (some (jsArrJoin " " (jsonListOfStrings catTags))) := by
      rw [hcats]
      rfl
    have hl : tagsJoin (getField p "labels_tags") = .ok none := by
      rw [hlabs]
      rfl
    rw [transformProduct_ok text p _ _ ht hnull hg hc hl, Option.some.injEq] at hacc
    subst hacc
    rw [c9_tail text p name codeStr (none : Option String) _ _ hname hcode (by rw [hb]; rfl)]
    simp only [Option.getD_some, Option.getD_none, jsArrJoin_strings, joinWith_nil]
  · have hc : tagsJoin (getField p "categories_tags") = .ok none := by
      rw [hcats]
      rfl
    have hl : tagsJoin (getField p "labels_tags")
        = .ok (some (jsArrJoin " " (jsonListOfStrings labTags))) := by
      rw [hlabs]
      rfl
    rw [transformProduct_ok text p _ _ ht hnull hg hc hl, Option.some.injEq] at hacc
    subst hacc
    rw [c9_tail text p name codeStr (none : Option String) _ _ hname hcode (by rw [hb]; rfl)]
    simp only [Option.getD_some, Option.getD_none, jsArrJoin_strings, joinWith_nil]
  · have hc : tagsJoin (getField p "categories_tags") = .ok none := by
      rw [hcats]
      rfl
    have hl : tagsJoin (getField p "labels_tags") = .ok none := by
      rw [hlabs]
      rfl
    rw [transformProduct_ok text p _ _ ht hnull hg hc hl, Option.some.injEq] at hacc
    subst hacc
    rw [c9_tail text p name codeStr (none : Option String) _ _ hname hcode (by rw [hb]; rfl)]
    simp only [Option.getD_some, Option.getD_none, jsArrJoin_strings, joinWith_nil]

/-- Witness for C9 at the concrete `c9Line` (name, brands, code, two
category tags, no label tags). -/
theorem c9_search_text_witness :
    (transformedRecord "\x7braw\x7d" c9Json (some "en:spreads en:sweet") none).search_text
      = joinWith " "
        ((["Nutella", "Ferrero", "111", joinWith " " ["en:spreads", "en:sweet"],
            joinWith " " ([] : List String)]).filter (fun s => decide (¬s = ""))) :=
  c9_search_text_derivation "\x7braw\x7d" "Nutella" "Ferrero" "111"
    ["en:spreads", "en:sweet"] [] c9Json
    (transformedRecord "\x7braw\x7d" c9Json (some "en:spreads en:sweet") none)
    (by decide) (by decide) (Or.inl (by decide)) (Or.inl (by decide))
    (Or.inr ⟨by decide, rfl⟩) (by decide)
